import Mathlib

/-!
Verification development for the XpipelineForAnish repository.

The Python sources under `tools/` and `agents/` are embedded shallowly:
pure computations become Lean functions, the filesystem becomes an explicit
list of file entries threaded through the storage operations, wall-clock
readings become explicit `Nat`/`Int` parameters, and every place where the
Python code can hit an OS-level exception (a failing write, a failing
delete, a failing copy) takes an explicit `Option String` outcome
parameter (`none` = the call succeeds, `some e` = the call raises an
exception whose text is `e`).  JSON serialization is modelled as the
identity on the stored payload; a file whose write failed partway is
recorded as `FileData.corrupt` (it exists on disk but does not parse).
-/

namespace XPipeline

/-! ## Character-list helpers (string splitting and pattern matching)

`pathlib.Path.glob` patterns of the shape `{user}_{kind}_*.json` are
modelled as a prefix check plus a `.json` suffix check on the file name;
`str.split(sep)` for a one-character separator is `split_on_char`. -/

def is_prefix_chars : List Char → List Char → Bool
  | [], _ => true
  | _ :: _, [] => false
  | p :: ps, s :: ss => if p = s then is_prefix_chars ps ss else false

def is_suffix_chars (p s : List Char) : Bool := is_prefix_chars p.reverse s.reverse

def str_starts (s p : String) : Bool := is_prefix_chars p.data s.data

def str_ends (s p : String) : Bool := is_suffix_chars p.data s.data

def split_on_char : List Char → Char → List (List Char)
  | [], _ => [[]]
  | x :: xs, c =>
    if x = c then [] :: split_on_char xs c
    else
      match split_on_char xs c with
      | [] => [[x]]
      | h :: t => (x :: h) :: t

/-! ## Digit parsing

Mirrors the digit groups of CPython `_strptime`: a field of the format
matches between `lo` and `hi` digit characters and yields their value. -/

def all_digits (l : List Char) : Bool := l.all (fun c => decide ('0' ≤ c ∧ c ≤ '9'))

def chars_to_nat : List Char → Nat → Nat
  | [], acc => acc
  | c :: cs, acc => chars_to_nat cs (acc * 10 + (c.toNat - 48))

def parse_nat_digits (l : List Char) (lo hi : Nat) : Option Nat :=
  if all_digits l = true ∧ lo ≤ l.length ∧ l.length ≤ hi then some (chars_to_nat l 0)
  else none

/-! ## Calendar model

`datetime` values are compared chronologically.  `rata_die` is the
standard civil-calendar day count (days since 0000-03-01, valid for the
years `1 ≤ y ≤ 9999` accepted by `datetime`), so comparing dates through
`date_secs` agrees with Python's `datetime` ordering.  `civil_from_rata`
is its inverse, used to render `%Y-%m-%d` and `%Y%m%d_%H%M%S`. -/

structure Date where
  year : Nat
  month : Nat
  day : Nat
deriving DecidableEq

def is_leap (y : Nat) : Bool := decide ((y % 4 = 0 ∧ y % 100 ≠ 0) ∨ y % 400 = 0)

def days_in_month (y m : Nat) : Nat :=
  if m = 2 then (if is_leap y then 29 else 28)
  else if m = 4 ∨ m = 6 ∨ m = 9 ∨ m = 11 then 30
  else 31

def rata_die (year month day : Nat) : Nat :=
  let y := if month ≤ 2 then year - 1 else year
  let era := y / 400
  let yoe := y % 400
  let mp := (month + 9) % 12
  let doy := (153 * mp + 2) / 5 + day - 1
  let doe := yoe * 365 + yoe / 4 - yoe / 100 + doy
  era * 146097 + doe

def civil_from_rata (z : Nat) : Nat × Nat × Nat :=
  let era := z / 146097
  let doe := z % 146097
  let yoe := (doe - doe / 1460 + doe / 36524 - doe / 146096) / 365
  let y := yoe + era * 400
  let doy := doe - (365 * yoe + yoe / 4 - yoe / 100)
  let mp := (5 * doy + 2) / 153
  let d := doy - (153 * mp + 2) / 5 + 1
  let m := if mp < 10 then mp + 3 else mp - 9
  (if m ≤ 2 then y + 1 else y, m, d)

def date_secs (d : Date) : Int := (rata_die d.year d.month d.day : Int) * 86400

/-! ## strptime('%Y-%m-%d')

Directory names are parsed exactly as `datetime.strptime(name, '%Y-%m-%d')`
does: four year digits, one or two month digits in 1..12, one or two day
digits valid for that month, nothing left over; any other name raises
`ValueError` (here: `none`). -/

def parse_date_name (s : String) : Option Date :=
  match split_on_char s.data '-' with
  | [ys, ms, ds] =>
    match parse_nat_digits ys 4 4, parse_nat_digits ms 1 2, parse_nat_digits ds 1 2 with
    | some y, some m, some d =>
      if 1 ≤ y ∧ 1 ≤ m ∧ m ≤ 12 ∧ 1 ≤ d ∧ d ≤ days_in_month y m then some ⟨y, m, d⟩
      else none
    | _, _, _ => none
  | _ => none

/-! ## strptime('%a %b %d %H:%M:%S +0000 %Y')

Tweet timestamps (`created_at`) are parsed as in
`AnalysisProcessor._analyze_posting_frequency`: an abbreviated weekday
name (checked case-insensitively, not checked for consistency with the
date), an abbreviated month name, a day, a time, the literal `+0000`, and
a four-digit year; the resulting `datetime` must be valid. -/

def lower_char (c : Char) : Char :=
  if 'A' ≤ c ∧ c ≤ 'Z' then Char.ofNat (c.toNat + 32) else c

def lower_chars (l : List Char) : List Char := l.map lower_char

def weekday_names : List String := ["mon", "tue", "wed", "thu", "fri", "sat", "sun"]

def month_names : List String :=
  ["jan", "feb", "mar", "apr", "may", "jun", "jul", "aug", "sep", "oct", "nov", "dec"]

def month_num_go : List String → Nat → List Char → Option Nat
  | [], _, _ => none
  | n :: ns, i, l => if n.data = l then some (i + 1) else month_num_go ns (i + 1) l

def month_num (l : List Char) : Option Nat := month_num_go month_names 0 l

def parse_time_chars (l : List Char) : Option (Nat × Nat × Nat) :=
  match split_on_char l ':' with
  | [hs, mins, secs] =>
    match parse_nat_digits hs 1 2, parse_nat_digits mins 1 2, parse_nat_digits secs 1 2 with
    | some h, some mi, some s =>
      if h ≤ 23 ∧ mi ≤ 59 ∧ s ≤ 59 then some (h, mi, s) else none
    | _, _, _ => none
  | _ => none

def parse_created_at (s : String) : Option (Date × Nat) :=
  match split_on_char s.data ' ' with
  | [wd, mon, dd, tm, tz, yy] =>
    if weekday_names.any (fun n => decide (n.data = lower_chars wd)) then
      match month_num (lower_chars mon), parse_nat_digits dd 1 2,
          parse_time_chars tm, parse_nat_digits yy 4 4 with
      | some m, some d, some t, some y =>
        if tz = "+0000".data ∧ 1 ≤ y ∧ 1 ≤ d ∧ d ≤ days_in_month y m then
          some (⟨y, m, d⟩, t.1)
        else none
      | _, _, _, _ => none
    else none
  | _ => none

/-! ## Timestamp rendering

`datetime.now()` is modelled as a microsecond counter `t_usec` (Python's
clock has sub-second resolution).  `strftime('%Y-%m-%d')` and
`strftime('%Y%m%d_%H%M%S')` contain no sub-second directive, so both
renderings factor through `t_usec / 1000000`. -/

def pad2 (n : Nat) : String := if n < 10 then "0" ++ toString n else toString n

def pad4 (n : Nat) : String :=
  if n < 10 then "000" ++ toString n
  else if n < 100 then "00" ++ toString n
  else if n < 1000 then "0" ++ toString n
  else toString n

def date_str_of_secs (secs : Nat) : String :=
  let c := civil_from_rata (secs / 86400)
  pad4 c.1 ++ "-" ++ pad2 c.2.1 ++ "-" ++ pad2 c.2.2

def ts_str_of_secs (secs : Nat) : String :=
  let c := civil_from_rata (secs / 86400)
  let rem := secs % 86400
  pad4 c.1 ++ pad2 c.2.1 ++ pad2 c.2.2 ++ "_" ++
    pad2 (rem / 3600) ++ pad2 (rem % 3600 / 60) ++ pad2 (rem % 60)

/-! ## Filesystem model

A filesystem is a list of file entries.  `FileData.complete p` is a fully
written JSON file whose parsed payload is `p`; `FileData.corrupt` is a
file that exists but fails to parse (e.g. a write that died partway
through `json.dump`).  `mtime` is the file's modification time in
seconds. -/

inductive FileData (α : Type) where
  | complete (payload : α)
  | corrupt
deriving DecidableEq

structure FileEntry (α : Type) where
  dir : String
  name : String
  mtime : Nat
  content : FileData α
deriving DecidableEq

abbrev FS (α : Type) : Type := List (FileEntry α)

/-- A file entry matches the glob `{dir}/{pre}*.json`. -/
def matches_pattern {α : Type} (dir pre : String) (e : FileEntry α) : Bool :=
  if e.dir = dir then str_starts e.name pre && str_ends e.name ".json" else false

def glob_matches {α : Type} (fs : FS α) (dir pre : String) : FS α :=
  List.filter (matches_pattern dir pre) fs

/-- Python's `max(files, key=mtime)`: the fold keeps the current candidate
unless a strictly larger key appears, so the earliest entry attaining the
maximal mtime is returned; `none` on an empty candidate list. -/
def max_by_mtime {α : Type} : FS α → Option (FileEntry α)
  | [] => none
  | e :: es => some (es.foldl (fun best x => if x.mtime > best.mtime then x else best) e)

/-! ## DataFetcher.fetch_user_tweets (save step, data_fetcher.py lines 87-93)

The fetcher writes the fetched tweet list directly to
`data/raw/{username}_raw_{timestamp}.json` (`self.base_dir` is
`Path('data/raw')`). -/

def fetch_save_raw {α : Type} (tweets : α) (username ts : String) (mtime : Nat)
    (fs : FS α) : FS α :=
  fs ++ [⟨"data/raw", username ++ "_raw_" ++ ts ++ ".json", mtime, FileData.complete tweets⟩]

/-! ## DataManager.store_tweet_data (data_manager.py lines 63-95) -/

structure StoreResult where
  status : String
  message : String
  filepath : Option String
  filename : Option String
  data_type : Option String
  tweet_count : Option Nat
deriving DecidableEq

def store_dir (username data_type date_str : String) : String :=
  if data_type = "raw" then "output/" ++ date_str ++ "/tweets/raw/" ++ username
  else "output/" ++ date_str ++ "/tweets/analyzed/" ++ username

def store_filename (username data_type ts : String) : String :=
  username ++ "_" ++ data_type ++ "_" ++ ts ++ ".json"

def store_file_path (username data_type : String) (t_usec : Nat) : String :=
  store_dir username data_type (date_str_of_secs (t_usec / 1000000)) ++ "/" ++
    store_filename username data_type (ts_str_of_secs (t_usec / 1000000))

/-- `store_tweet_data(tweets, username, data_type)` at wall-clock time
`t_usec` (microseconds).  An empty tweet list is rejected before anything
touches the disk.  Otherwise the payload is dumped directly to the final
path (there is no temporary file and no rename); `write_err = some e`
models `json.dump` raising after the file was opened, which leaves a
corrupt file at the target path and is converted to an error result by
the `except` clause. -/
def store_tweet_data {α : Type} (tweets : List α) (username data_type : String)
    (t_usec : Nat) (write_err : Option String) (fs : FS (List α)) :
    StoreResult × FS (List α) :=
  if tweets.isEmpty then
    (⟨"error", "No tweets to store for " ++ username, none, none, none, none⟩, fs)
  else
    let dir := store_dir username data_type (date_str_of_secs (t_usec / 1000000))
    let fname := store_filename username data_type (ts_str_of_secs (t_usec / 1000000))
    match write_err with
    | none =>
      (⟨"success", "Successfully stored " ++ toString tweets.length ++ " tweets for " ++ username,
        some (dir ++ "/" ++ fname), some fname, some data_type, some tweets.length⟩,
       fs ++ [⟨dir, fname, t_usec / 1000000, FileData.complete tweets⟩])
    | some e =>
      (⟨"error", "Error storing tweet data for " ++ username ++ ": " ++ e,
        none, none, none, none⟩,
       fs ++ [⟨dir, fname, t_usec / 1000000, FileData.corrupt⟩])

/-! ## DataManager.retrieve_user_data (data_manager.py lines 435-482)

Retrieval always scans `{base_dir}/{kind}/{username}_{kind}_*.json` with
`base_dir = Path('data')`, picks the candidate with maximal mtime, and
parses it; a parse failure raises and is converted to an error result in
which all data collected so far is dropped. -/

structure RetrieveResult (α : Type) where
  status : String
  raw : Option α
  analyzed : Option α
  insights : Option α
deriving DecidableEq

def read_latest {α : Type} (fs : FS α) (dir pre : String) : Except Unit (Option α) :=
  match max_by_mtime (glob_matches fs dir pre) with
  | none => Except.ok none
  | some e =>
    match e.content with
    | FileData.complete p => Except.ok (some p)
    | FileData.corrupt => Except.error ()

def retrieve_user_data {α : Type} (username data_type : String) (fs : FS α) :
    RetrieveResult α :=
  match (if data_type = "raw" ∨ data_type = "all" then
           read_latest fs "data/raw" (username ++ "_raw_")
         else Except.ok none) with
  | Except.error _ => ⟨"error", none, none, none⟩
  | Except.ok raw =>
    match (if data_type = "analyzed" ∨ data_type = "all" then
             read_latest fs "data/analyzed" (username ++ "_analyzed_")
           else Except.ok none) with
    | Except.error _ => ⟨"error", none, none, none⟩
    | Except.ok an =>
      match (if data_type = "insights" ∨ data_type = "all" then
               read_latest fs "data/insights" (username ++ "_insights_")
             else Except.ok none) with
      | Except.error _ => ⟨"error", none, none, none⟩
      | Except.ok ins => ⟨"success", raw, an, ins⟩

/-! ## DataManager.cleanup_old_data (data_manager.py lines 221-268)

The corpus is the content of `base_dir`: its top-level directories
(`dirs`, with their names) and the `*.json`-candidate files inside the
top-level kind directories (`files`, with the kind directory they live
in, their name and mtime).  Each entry carries the outcome of the OS
delete call that would remove it (`delete_err = none`: `shutil.rmtree` /
`Path.unlink` succeeds; `some e`: the call raises `e`).  The whole
function body sits in a single `try`, so the first raising delete aborts
both sweeps: the error result is returned, the list of already-deleted
entries is lost, and nothing after the failing entry is swept. -/

structure CorpusDir where
  name : String
  delete_err : Option String
deriving DecidableEq

structure CorpusFile where
  subdir : String
  name : String
  mtime : Int
  delete_err : Option String
deriving DecidableEq

structure Corpus where
  dirs : List CorpusDir
  files : List CorpusFile
deriving DecidableEq

structure CleanupResult where
  status : String
  message : String
  deleted_files : Option (List String)
deriving DecidableEq

def reserved_dir_names : List String := ["archived", "backups", "logs"]

/-- A top-level directory is removed when it is not one of the reserved
names and its name parses as a date strictly before the cutoff. -/
def should_delete_dir (cutoff : Int) (d : CorpusDir) : Bool :=
  if reserved_dir_names.any (fun n => decide (n = d.name)) then false
  else
    match parse_date_name d.name with
    | some dt => decide (date_secs dt < cutoff)
    | none => false

def sweep_dirs (cutoff : Int) :
    List CorpusDir → List String → List CorpusDir →
      Option String × List String × List CorpusDir
  | [], del, kept => (none, del, kept)
  | d :: ds, del, kept =>
    if should_delete_dir cutoff d then
      match d.delete_err with
      | none => sweep_dirs cutoff ds (del ++ [d.name]) kept
      | some e => (some e, del, kept ++ d :: ds)
    else sweep_dirs cutoff ds del (kept ++ [d])

def file_sweep_subdirs : List String := ["raw", "analyzed", "processed", "temp"]

def corpus_file_path (f : CorpusFile) : String := "data/" ++ f.subdir ++ "/" ++ f.name

/-- A loose file is removed by the second sweep over kind directory `s`
when it lives in `s`, matches `*.json` and its mtime is before the
cutoff (`_is_file_old`). -/
def due_for_delete (cutoff : Int) (s : String) (f : CorpusFile) : Bool :=
  if f.subdir = s then str_ends f.name ".json" && decide (f.mtime < cutoff) else false

def sweep_group (cutoff : Int) (s : String) :
    List CorpusFile → Option String × List String × List CorpusFile
  | [] => (none, [], [])
  | f :: fs =>
    if due_for_delete cutoff s f then
      match f.delete_err with
      | none =>
        match sweep_group cutoff s fs with
        | (err, del, kept) => (err, corpus_file_path f :: del, kept)
      | some e => (some e, [], f :: fs)
    else
      match sweep_group cutoff s fs with
      | (err, del, kept) => (err, del, f :: kept)

def sweep_files_go (cutoff : Int) :
    List String → List CorpusFile → List String →
      Option String × List String × List CorpusFile
  | [], files, del => (none, del, files)
  | s :: rest, files, del =>
    match sweep_group cutoff s files with
    | (some e, gdel, kept) => (some e, del ++ gdel, kept)
    | (none, gdel, kept) => sweep_files_go cutoff rest kept (del ++ gdel)

def cleanup_old_data (days_to_keep : Nat) (now : Int) (c : Corpus) :
    CleanupResult × Corpus :=
  let cutoff : Int := now - (days_to_keep : Int) * 86400
  match sweep_dirs cutoff c.dirs [] [] with
  | (some e, _, kept_dirs) => (⟨"error", e, none⟩, ⟨kept_dirs, c.files⟩)
  | (none, dir_del, kept_dirs) =>
    match sweep_files_go cutoff file_sweep_subdirs c.files [] with
    | (some e, _, kept_files) => (⟨"error", e, none⟩, ⟨kept_dirs, kept_files⟩)
    | (none, file_del, kept_files) =>
      (⟨"success", "Cleaned up data older than " ++ toString days_to_keep ++ " days",
        some (dir_del ++ file_del)⟩,
       ⟨kept_dirs, kept_files⟩)

/-- Specification of the removed-file list in sweep order: the kind
directories are visited in their fixed order and within each the due
files in corpus order. -/
def files_del_list (cutoff : Int) : List String → List CorpusFile → List String
  | [], _ => []
  | s :: rest, files =>
    (files.filter (due_for_delete cutoff s)).map corpus_file_path ++
      files_del_list cutoff rest (files.filter (fun f => !(due_for_delete cutoff s f)))

/-! ## DataManager.create_backup (data_manager.py lines 278-313)

The copy loop (`shutil.copytree` / `copy2`) either completes or raises;
`copy_err` carries the outcome.  The content of the copy is outside the
scope of the verified claims. -/

structure BackupResult where
  status : String
  message : String
  backup_path : Option String
deriving DecidableEq

def create_backup (backup_name : Option String) (default_ts : String)
    (copy_err : Option String) : BackupResult :=
  let name :=
    match backup_name with
    | some n => n
    | none => "backup_" ++ default_ts
  match copy_err with
  | some e => ⟨"error", e, none⟩
  | none => ⟨"success", "Created backup: " ++ name, some ("data/backups/" ++ name)⟩

/-! ## DataManager.validate_data_integrity (data_manager.py lines 396-433)

Walks every `*.json` file under the base directory, counting it and
sorting it into the valid or invalid bucket according to whether
`json.load` succeeds; parse failures are data, never exceptions, so the
status is always success. -/

structure ValidationResult where
  status : String
  valid_files : List String
  invalid_files : List String
  total_files : Nat
deriving DecidableEq

def entry_path {α : Type} (e : FileEntry α) : String := e.dir ++ "/" ++ e.name

def is_complete {α : Type} : FileData α → Bool
  | FileData.complete _ => true
  | FileData.corrupt => false

def validate_data_integrity {α : Type} (fs : FS α) : ValidationResult :=
  let json_files := fs.filter (fun e => str_ends e.name ".json")
  ⟨"success",
   (json_files.filter (fun e => is_complete e.content)).map entry_path,
   (json_files.filter (fun e => !(is_complete e.content))).map entry_path,
   json_files.length⟩

/-! ## AnalysisProcessor: per-tweet analysis output

`analyze_single_tweet` produces a dict per tweet; the downstream
aggregation (`_generate_comprehensive_analysis` and its helpers) reads
exactly these fields of it: `sentiment.overall_sentiment`,
`engagement.total_engagement`, `media.has_media` and `created_at`.
`ATweet` is that projection; the NLP feature extraction that fills it is
an external collaborator.  Fields of the bundle that no verified claim
mentions (most_engaging_tweets, word/hashtag/mention totals,
sentiment_trends, engagement_patterns, the embedded tweet list) are not
modelled. -/

structure ATweet where
  sentiment : String
  total_engagement : Nat
  has_media : Bool
  created_at : String
deriving DecidableEq

/-- Python dict/Counter update `d[k] += 1` (insertion order preserved:
the first entry for `k` is bumped in place, a missing key is appended
with count 1). -/
def bump {κ : Type} [DecidableEq κ] : List (κ × Nat) → κ → List (κ × Nat)
  | [], k => [(k, 1)]
  | p :: d, k => if p.1 = k then (p.1, p.2 + 1) :: d else p :: bump d k

/-- Python dict `d.get(k, 0)`. -/
def counter_lookup {κ : Type} [DecidableEq κ] : List (κ × Nat) → κ → Nat
  | [], _ => 0
  | p :: d, k => if p.1 = k then p.2 else counter_lookup d k

/-- Python `max(items, key=lambda x: x[1])` over `dict.items()`: the fold
keeps the current candidate unless a strictly larger count appears, so
the earliest entry (in dict insertion order) attaining the maximal count
wins. -/
def py_max_snd {κ : Type} : List (κ × Nat) → Option (κ × Nat)
  | [] => none
  | x :: xs => some (xs.foldl (fun best y => if y.2 > best.2 then y else best) x)

/-! ## AnalysisProcessor._analyze_posting_frequency (lines 431-456) -/

structure PostingFreq where
  daily_posts : List (Date × Nat)
  hourly_distribution : List (Nat × Nat)
  most_active_hour : Option Nat
deriving DecidableEq

def posting_freq_step (acc : List (Date × Nat) × List (Nat × Nat)) (t : ATweet) :
    List (Date × Nat) × List (Nat × Nat) :=
  match parse_created_at t.created_at with
  | some (d, h) => (bump acc.1 d, bump acc.2 h)
  | none => acc

def analyze_posting_frequency (ts : List ATweet) : PostingFreq :=
  let dh := ts.foldl posting_freq_step ([], [])
  ⟨dh.1, dh.2, (py_max_snd dh.2).map Prod.fst⟩

/-! ## AnalysisProcessor._generate_comprehensive_analysis (lines 371-429)

An empty analyzed-tweet list short-circuits to the empty dict `{}`
(modelled as `none`); otherwise the full bundle is built.  Averages are
modelled over `ℚ` (Python computes them in floating point). -/

def sentiment_counter (ts : List ATweet) : List (String × Nat) :=
  ts.foldl (fun d t => bump d t.sentiment) []

def sum_engagement (ts : List ATweet) : Nat :=
  (ts.map ATweet.total_engagement).sum

def media_count (ts : List ATweet) : Nat :=
  (ts.filter (fun t => t.has_media)).length

structure Bundle where
  username : String
  total_tweets : Nat
  sentiment_distribution : List (String × Nat)
  total_engagement : Nat
  average_engagement : ℚ
  tweets_with_media : Nat
  media_percentage : ℚ
  posting_frequency : PostingFreq
deriving DecidableEq

def generate_comprehensive_analysis (ts : List ATweet) (username : String) :
    Option Bundle :=
  if ts.isEmpty then none
  else
    some
      { username := username
        total_tweets := ts.length
        sentiment_distribution := sentiment_counter ts
        total_engagement := sum_engagement ts
        average_engagement := (sum_engagement ts : ℚ) / (ts.length : ℚ)
        tweets_with_media := media_count ts
        media_percentage := ((media_count ts : ℚ) / (ts.length : ℚ)) * 100
        posting_frequency := analyze_posting_frequency ts }

/-! ## AnalysisProcessor._generate_recommendations (lines 630-656)

The four rules fire in fixed order.  Rule 3 compares the raw count
`sentiment_distribution.get('neutral', 0)` against 70.  Rule 4 tests the
truthiness of the `posting_frequency` dict, which always carries its
three keys when a bundle exists, and is the empty (falsy) dict `{}` only
when `analysis_data` itself is the empty dict. -/

def rec_engaging : String :=
  "Consider posting more engaging content to increase interaction rates"

def rec_media : String := "Increase media usage in posts to boost engagement"

def rec_emotional : String :=
  "Consider adding more emotional content to increase engagement"

def rec_posting_times : String :=
  "Analyze optimal posting times based on engagement patterns"

def generate_recommendations (analysis_data : Option Bundle) : List String :=
  match analysis_data with
  | none =>
    -- summary.get defaults: avg 0 < 10, media 0 < 30, neutral 0 not > 70,
    -- posting_frequency {} falsy
    [rec_engaging, rec_media]
  | some b =>
    (if b.average_engagement < 10 then [rec_engaging] else []) ++
      (if b.media_percentage < 30 then [rec_media] else []) ++
      (if counter_lookup b.sentiment_distribution "neutral" > 70 then [rec_emotional]
       else []) ++
      [rec_posting_times]

/-! ## AnalysisProcessor.analyze_user_tweets (lines 71-126)

Reads the most recent `data/raw/{username}_raw_*.json`, maps
`analyze_single_tweet` (a total function: its own `except` clause returns
a dict either way) over the loaded tweets, aggregates, and writes the
result; any exception on the way (missing files is reported explicitly,
a corrupt raw file or a failing output write raise and are converted by
the outer `except`) yields an error result. -/

structure AnalyzeResult where
  status : String
  message : String
  analysis : Option Bundle
deriving DecidableEq

def analyze_user_tweets {α : Type} (username : String) (single : α → ATweet)
    (write_err : Option String) (fs : FS (List α)) : AnalyzeResult :=
  match max_by_mtime (glob_matches fs "data/raw" (username ++ "_raw_")) with
  | none => ⟨"error", "No data files found for " ++ username, none⟩
  | some e =>
    match e.content with
    | FileData.corrupt =>
      ⟨"error", "Error analyzing tweets for " ++ username ++ ": invalid JSON", none⟩
    | FileData.complete tweets =>
      let analyzed := tweets.map single
      match write_err with
      | some er => ⟨"error", "Error analyzing tweets for " ++ username ++ ": " ++ er, none⟩
      | none =>
        ⟨"success",
         "Successfully analyzed " ++ toString analyzed.length ++ " tweets for " ++ username,
         generate_comprehensive_analysis analyzed username⟩

/-! ## TweetAnalysisAgent.process_multiple_users (tweet_analysis_agent.py lines 69-101)

`asyncio.gather(..., return_exceptions=True)` yields, in input order, one
outcome per username: either the dict returned by `process_user` or the
exception it raised (`process_user` is a fixed function of the username,
modelled as `proc : String → Except String ProcResult` where the
`Except.error` side carries `str(exception)`).  The loop then fills a
Python dict keyed by username, converting exceptions to error records. -/

structure ProcResult where
  status : String
  message : String
deriving DecidableEq

def convert_result : Except String ProcResult → ProcResult
  | Except.error e => ⟨"error", "Exception occurred: " ++ e⟩
  | Except.ok r => r

/-- Python dict assignment `d[k] = v`: the first entry for `k` is
replaced in place, a missing key is appended. -/
def dict_insert : List (String × ProcResult) → String → ProcResult →
    List (String × ProcResult)
  | [], k, v => [(k, v)]
  | p :: d, k, v => if p.1 = k then (k, v) :: d else p :: dict_insert d k v

def process_multiple_users (usernames : List String)
    (proc : String → Except String ProcResult) : List (String × ProcResult) :=
  let results := usernames.map proc
  (usernames.zip results).foldl (fun acc p => dict_insert acc p.1 (convert_result p.2)) []

/-! ## Concrete sample inputs used in counterexamples and witnesses -/

/-- Ten analyzed items, all neutral, high engagement, all with media. -/
def sample_neutral_ten : List ATweet := List.replicate 10 ⟨"neutral", 100, true, ""⟩

/-- Seventy-one analyzed items, all neutral, no engagement, no media. -/
def sample_neutral_71 : List ATweet := List.replicate 71 ⟨"neutral", 0, false, ""⟩

/-- Two items whose timestamps parse to hours 23 and 1, one post each:
the hourly histogram ties at count 1. -/
def sample_tie_tweets : List ATweet :=
  [⟨"neutral", 0, false, "Mon Jan 01 23:00:00 +0000 2024"⟩,
   ⟨"neutral", 0, false, "Tue Jan 02 01:00:00 +0000 2024"⟩]

/-- A per-user pipeline in which user "a" raises an exception and every
other user succeeds. -/
def sample_proc : String → Except String ProcResult :=
  fun u => if u = "a" then Except.error "boom" else Except.ok ⟨"success", "ok"⟩

/-- Two expired date partitions; deleting the first raises. -/
def sample_fail_corpus : Corpus :=
  ⟨[⟨"2024-01-01", some "permission denied"⟩, ⟨"2024-01-02", none⟩], []⟩

/-- An expired date partition, an unparseable kind directory and one old
loose raw file; every delete succeeds. -/
def sample_ok_corpus : Corpus :=
  ⟨[⟨"2024-01-01", none⟩, ⟨"raw", none⟩], [⟨"raw", "a_raw_1.json", 0, none⟩]⟩

/-! ## Helper lemmas -/

theorem is_prefix_chars_append (p r : List Char) : is_prefix_chars p (p ++ r) = true := by
  induction p with
  | nil => rfl
  | cons c cs ih => simp [is_prefix_chars, ih]

theorem is_suffix_chars_append (p r : List Char) : is_suffix_chars p (r ++ p) = true := by
  unfold is_suffix_chars
  rw [List.reverse_append]
  exact is_prefix_chars_append p.reverse r.reverse

theorem str_data_append (a b : String) : (a ++ b).data = a.data ++ b.data := by
  cases a; cases b; rfl

theorem str_starts_append (a b : String) : str_starts (a ++ b) a = true := by
  unfold str_starts
  rw [str_data_append]
  exact is_prefix_chars_append a.data b.data

theorem str_ends_append (a b : String) : str_ends (a ++ b) b = true := by
  unfold str_ends
  rw [str_data_append]
  exact is_suffix_chars_append b.data a.data

/-! ## Claim C10 -/

/-- C10: for the empty tweet list, `store_tweet_data` returns an
error-status result with message "No tweets to store for {username}"
before any directory is created or file written, so the filesystem is
returned unchanged for every prior corpus state, clock reading and write
outcome. -/
theorem claim_C10_empty_store_is_noop {α : Type} (username data_type : String)
    (t_usec : Nat) (write_err : Option String) (fs : FS (List α)) :
    store_tweet_data ([] : List α) username data_type t_usec write_err fs =
      (⟨"error", "No tweets to store for " ++ username, none, none, none, none⟩, fs) := rfl

/-! ## Claim C3 -/

/-- C3 counterexample: a concrete store whose `json.dump` fails partway
(`write_err = some "disk full"`) returns an error result, yet the target
directory `output/2024-01-01/tweets/raw/alice` does contain an artifact
written by that call (the partial file), contradicting the claim that the
implementation writes to a temporary path and renames so that no partial
file is left visible. -/
theorem claim_C3_counterexample :
    (store_tweet_data [(1 : Nat)] "alice" "raw"
        ((rata_die 2024 1 1 * 86400 + 43200) * 1000000) (some "disk full") []).1.status =
      "error" ∧
    (store_tweet_data [(1 : Nat)] "alice" "raw"
        ((rata_die 2024 1 1 * 86400 + 43200) * 1000000) (some "disk full") []).2.filter
        (fun e => decide (e.dir = "output/2024-01-01/tweets/raw/alice")) ≠ [] := by
  decide

/-- C3 (amended): if the filesystem write fails partway, `store_tweet_data`
returns an error-status result (the exception is caught, not propagated),
but since the payload is dumped directly to the final artifact path with
no temporary file and no rename, a partial (corrupt) file remains visible
at the target path after the failed store. -/
theorem claim_C3_failed_write_leaves_partial_file {α : Type} (tweets : List α)
    (u dt : String) (t : Nat) (e : String) (fs : FS (List α)) (h : tweets ≠ []) :
    (store_tweet_data tweets u dt t (some e) fs).1 =
      ⟨"error", "Error storing tweet data for " ++ u ++ ": " ++ e,
        none, none, none, none⟩ ∧
    (store_tweet_data tweets u dt t (some e) fs).2 =
      fs ++ [⟨store_dir u dt (date_str_of_secs (t / 1000000)),
              store_filename u dt (ts_str_of_secs (t / 1000000)), t / 1000000,
              FileData.corrupt⟩] := by
  unfold store_tweet_data
  rw [if_neg]
  · exact ⟨rfl, rfl⟩
  · simp [h]

/-- Witness for C3: the amended theorem applied at a concrete failed
store. -/
theorem claim_C3_failed_write_leaves_partial_file_witness :
    ((store_tweet_data [(1 : Nat)] "bob" "raw" 0 (some "boom") []).1 =
      ⟨"error", "Error storing tweet data for bob: boom", none, none, none, none⟩ ∧
    (store_tweet_data [(1 : Nat)] "bob" "raw" 0 (some "boom") []).2 =
      [] ++ [⟨store_dir "bob" "raw" (date_str_of_secs (0 / 1000000)),
              store_filename "bob" "raw" (ts_str_of_secs (0 / 1000000)), 0 / 1000000,
              FileData.corrupt⟩]) :=
  claim_C3_failed_write_leaves_partial_file [(1 : Nat)] "bob" "raw" 0 "boom" []
    (by decide)

/-! ## Claim C8 -/

/-- C8 counterexample: two store calls for the same `(kind, entity_id)`
at distinct wall-clock instants 0 us and 500000 us — i.e. within the same
second — target exactly the same artifact path, contradicting the claim
that the embedded timestamp carries sub-second or monotonic-counter
disambiguation making paths always distinct. -/
theorem claim_C8_counterexample :
    (store_tweet_data [(1 : Nat)] "alice" "raw" 0 none []).1.filepath =
      (store_tweet_data [(1 : Nat)] "alice" "raw" 500000 none []).1.filepath ∧
    ((store_tweet_data [(1 : Nat)] "alice" "raw" 0 none []).1.filepath).isSome = true ∧
    (0 : Nat) ≠ 500000 := by
  decide

/-- C8 (amended): the filename timestamp `%Y%m%d_%H%M%S` has only second
resolution, so two store calls for the same `(kind, entity_id)` whose
clock readings fall in the same wall-clock second target the *same* path
(and the later write overwrites the earlier); distinct paths only arise
from calls in distinct seconds. -/
theorem claim_C8_same_second_same_store_path (u dt : String) (t1 t2 : Nat)
    (h : t1 / 1000000 = t2 / 1000000) :
    store_file_path u dt t1 = store_file_path u dt t2 := by
  unfold store_file_path
  rw [h]

/-- Witness for C8: two distinct microsecond instants inside one second. -/
theorem claim_C8_same_second_same_store_path_witness :
    (1 / 1000000 : Nat) = 2 / 1000000 ∧
      store_file_path "bob" "raw" 1 = store_file_path "bob" "raw" 2 :=
  ⟨by decide, claim_C8_same_second_same_store_path "bob" "raw" 1 2 (by decide)⟩

/-! ## Claim C7 -/

/-- C7 counterexample: for the empty analyzed-tweet list the analyzer
returns the empty dict `{}` (here `none`) — an absent, structureless
result — not a bundle with zeroed aggregates and an empty recommendation
list as the claim states. -/
theorem claim_C7_counterexample :
    generate_comprehensive_analysis ([] : List ATweet) "user" = none := rfl

/-- C7 (amended): `_generate_comprehensive_analysis` returns the empty
dict exactly for the empty item sequence; for every non-empty sequence it
returns a full bundle (in particular `total_tweets` equals the item
count) and, all exception paths being converted to results, never raises. -/
theorem claim_C7_empty_input_empty_dict (ts : List ATweet) (u : String) :
    (generate_comprehensive_analysis ts u = none ↔ ts = []) ∧
    (ts ≠ [] →
      (generate_comprehensive_analysis ts u).map Bundle.total_tweets = some ts.length) := by
  cases ts with
  | nil => exact ⟨by simp [generate_comprehensive_analysis], fun h => absurd rfl h⟩
  | cons t ts =>
    constructor
    · simp [generate_comprehensive_analysis]
    · intro _
      rfl

/-- Witness for C7: a concrete singleton input. -/
theorem claim_C7_empty_input_empty_dict_witness :
    (generate_comprehensive_analysis [(⟨"neutral", 0, false, ""⟩ : ATweet)] "u").map
      Bundle.total_tweets = some 1 :=
  (claim_C7_empty_input_empty_dict [(⟨"neutral", 0, false, ""⟩ : ATweet)] "u").2
    (by decide)

/-! ## Claim C9 -/

/-- C9: each of the public operations `store_tweet_data`,
`analyze_user_tweets`, `cleanup_old_data`, `create_backup` and
`validate_data_integrity` is total in the embedding and returns a result
whose `status` is either "success" or "error" on every input — every
exception path of the Python code is caught and converted to an
error-status dictionary, never propagated. -/
theorem claim_C9_status_totality :
    (∀ (α : Type) (tweets : List α) (u dt : String) (t : Nat)
        (werr : Option String) (fs : FS (List α)),
      (store_tweet_data tweets u dt t werr fs).1.status = "success" ∨
        (store_tweet_data tweets u dt t werr fs).1.status = "error") ∧
    (∀ (α : Type) (u : String) (single : α → ATweet) (werr : Option String)
        (fs : FS (List α)),
      (analyze_user_tweets u single werr fs).status = "success" ∨
        (analyze_user_tweets u single werr fs).status = "error") ∧
    (∀ (n : Nat) (now : Int) (c : Corpus),
      (cleanup_old_data n now c).1.status = "success" ∨
        (cleanup_old_data n now c).1.status = "error") ∧
    (∀ (name : Option String) (ts : String) (copy_err : Option String),
      (create_backup name ts copy_err).status = "success" ∨
        (create_backup name ts copy_err).status = "error") ∧
    (∀ (α : Type) (fs : FS α),
      (validate_data_integrity fs).status = "success" ∨
        (validate_data_integrity fs).status = "error") := by
  refine ⟨?_, ?_, ?_, ?_, ?_⟩
  · intro α tweets u dt t werr fs
    unfold store_tweet_data
    split
    · exact Or.inr rfl
    · cases werr
      · exact Or.inl rfl
      · exact Or.inr rfl
  · intro α u single werr fs
    unfold analyze_user_tweets
    split
    · exact Or.inr rfl
    · split
      · exact Or.inr rfl
      · cases werr
        · exact Or.inl rfl
        · exact Or.inr rfl
  · intro n now c
    simp only [cleanup_old_data]
    split
    · exact Or.inr rfl
    · split
      · exact Or.inr rfl
      · exact Or.inl rfl
  · intro name ts copy_err
    cases copy_err
    · exact Or.inl rfl
    · exact Or.inr rfl
  · intro α fs
    exact Or.inl rfl

/-! ## Claim C2 -/

theorem matches_pattern_fetch_name {α : Type} (u ts : String) (m : Nat) (d : FileData α) :
    matches_pattern "data/raw" (u ++ "_raw_")
      (⟨"data/raw", u ++ "_raw_" ++ ts ++ ".json", m, d⟩ : FileEntry α) = true := by
  unfold matches_pattern
  rw [if_pos rfl]
  rw [Bool.and_eq_true]
  constructor
  · unfold str_starts
    simp only [str_data_append]
    rw [List.append_assoc]
    exact is_prefix_chars_append (u.data ++ "_raw_".data) (ts.data ++ ".json".data)
  · unfold str_ends
    simp only [str_data_append]
    exact is_suffix_chars_append ".json".data ((u.data ++ "_raw_".data) ++ ts.data)

theorem foldl_max_keeps_fresh {α : Type} (e : FileEntry α) :
    ∀ (l : FS α) (b : FileEntry α), (∀ x ∈ l, x.mtime < e.mtime) → b.mtime < e.mtime →
      (l ++ [e]).foldl (fun best x => if x.mtime > best.mtime then x else best) b = e := by
  intro l
  induction l with
  | nil =>
    intro b _ hb
    simp only [List.nil_append, List.foldl_cons, List.foldl_nil]
    rw [if_pos hb]
  | cons x l ih =>
    intro b hl hb
    simp only [List.cons_append, List.foldl_cons]
    by_cases hx : x.mtime > b.mtime
    · rw [if_pos hx]
      exact ih x (fun y hy => hl y (List.mem_cons_of_mem _ hy)) (hl x (List.mem_cons_self _ _))
    · rw [if_neg hx]
      exact ih b (fun y hy => hl y (List.mem_cons_of_mem _ hy)) hb

theorem max_by_mtime_append_fresh {α : Type} (l : FS α) (e : FileEntry α)
    (h : ∀ x ∈ l, x.mtime < e.mtime) : max_by_mtime (l ++ [e]) = some e := by
  cases l with
  | nil => rfl
  | cons x l =>
    simp only [List.cons_append, max_by_mtime]
    congr 1
    exact foldl_max_keeps_fresh e l x (fun y hy => h y (List.mem_cons_of_mem _ hy))
      (h x (List.mem_cons_self _ _))

/-- C2 counterexample: a concrete successful `store_tweet_data` followed
by `retrieve_user_data` for the same entity and kind does *not* return
the stored payload: the store writes under
`output/{date}/tweets/raw/{username}/` while retrieval scans
`data/raw/{username}_raw_*.json`, so the retrieval result carries no raw
data at all. -/
theorem claim_C2_counterexample :
    (store_tweet_data [(1 : Nat)] "alice" "raw"
        ((rata_die 2024 1 1 * 86400 + 43200) * 1000000) none []).1.status = "success" ∧
    (retrieve_user_data "alice" "raw"
        ((store_tweet_data [(1 : Nat)] "alice" "raw"
            ((rata_die 2024 1 1 * 86400 + 43200) * 1000000) none []).2)).status =
      "success" ∧
    (retrieve_user_data "alice" "raw"
        ((store_tweet_data [(1 : Nat)] "alice" "raw"
            ((rata_die 2024 1 1 * 86400 + 43200) * 1000000) none []).2)).raw = none := by
  decide

/-- C2 (amended): the store/retrieve round trip holds only for artifacts
written under the retrieval root `data/{kind}/`: a raw save in the
fetcher's style (`data/raw/{username}_raw_{ts}.json`, as
`fetch_user_tweets` writes) followed by `retrieve_user_data(username,
'raw')` returns exactly the stored payload, provided the new file is
strictly fresher than every existing matching file.  `store_tweet_data`
and `store_analysis_results` write under `output/{date}/tweets/...`,
which retrieval never scans, so their stores are not returned. -/
theorem claim_C2_fetch_raw_roundtrip {α : Type} (tweets : α) (u ts : String) (m : Nat)
    (fs : FS α)
    (hfresh : ∀ x ∈ glob_matches fs "data/raw" (u ++ "_raw_"), x.mtime < m) :
    retrieve_user_data u "raw" (fetch_save_raw tweets u ts m fs) =
      ⟨"success", some tweets, none, none⟩ := by
  have hglob : glob_matches (fetch_save_raw tweets u ts m fs) "data/raw" (u ++ "_raw_") =
      glob_matches fs "data/raw" (u ++ "_raw_") ++
        [⟨"data/raw", u ++ "_raw_" ++ ts ++ ".json", m, FileData.complete tweets⟩] := by
    unfold fetch_save_raw glob_matches
    rw [List.filter_append]
    simp [matches_pattern_fetch_name]
  have hread : read_latest (fetch_save_raw tweets u ts m fs) "data/raw" (u ++ "_raw_") =
      Except.ok (some tweets) := by
    unfold read_latest
    rw [hglob, max_by_mtime_append_fresh _ _ hfresh]
  unfold retrieve_user_data
  rw [if_pos (Or.inl rfl), hread,
    if_neg (by decide : ¬("raw" = "analyzed" ∨ "raw" = "all")),
    if_neg (by decide : ¬("raw" = "insights" ∨ "raw" = "all"))]

/-- Witness for C2: round trip through an empty corpus (the freshness
hypothesis is vacuous there). -/
theorem claim_C2_fetch_raw_roundtrip_witness :
    retrieve_user_data "alice" "raw"
        (fetch_save_raw [(1 : Nat)] "alice" "20240101_120000" 5 []) =
      ⟨"success", some [(1 : Nat)], none, none⟩ :=
  claim_C2_fetch_raw_roundtrip [(1 : Nat)] "alice" "20240101_120000" 5 [] (by decide)

/-! ## Claim C5 -/

theorem counter_lookup_bump {κ : Type} [DecidableEq κ] :
    ∀ (d : List (κ × Nat)) (k bumped : κ),
      counter_lookup (bump d bumped) k =
        counter_lookup d k + (if bumped = k then 1 else 0) := by
  intro d
  induction d with
  | nil =>
    intro k bumped
    by_cases h : bumped = k
    · simp [bump, counter_lookup, h]
    · simp [bump, counter_lookup, h]
  | cons p d ih =>
    intro k bumped
    by_cases hp : p.1 = bumped
    · simp only [bump, if_pos hp]
      by_cases hk : p.1 = k
      · rw [hp] at hk
        simp [counter_lookup, hp, hk, ← hp]
      · have hbk : ¬ bumped = k := fun hb => hk (hp.trans hb)
        simp [counter_lookup, hk, hbk]
    · simp only [bump, if_neg hp]
      by_cases hk : p.1 = k
      · have hbk : ¬ bumped = k := fun hb => hp (by rw [hb, hk])
        simp [counter_lookup, hk, hbk]
      · simp [counter_lookup, hk, ih]

theorem sentiment_counter_fold_lookup (k : String) :
    ∀ (ts : List ATweet) (d : List (String × Nat)),
      counter_lookup (ts.foldl (fun d t => bump d t.sentiment) d) k =
        counter_lookup d k + (ts.filter (fun t => decide (t.sentiment = k))).length := by
  intro ts
  induction ts with
  | nil => intro d; simp
  | cons t ts ih =>
    intro d
    simp only [List.foldl_cons, List.filter_cons]
    rw [ih (bump d t.sentiment), counter_lookup_bump]
    by_cases h : t.sentiment = k
    · simp [h, Nat.add_assoc, Nat.add_comm 1]
    · simp [h]

theorem sentiment_counter_lookup (ts : List ATweet) (k : String) :
    counter_lookup (sentiment_counter ts) k =
      (ts.filter (fun t => decide (t.sentiment = k))).length := by
  unfold sentiment_counter
  rw [sentiment_counter_fold_lookup k ts []]
  simp [counter_lookup]

/-- For a non-empty input the recommendation list is exactly the fixed
chain of the four rules, with the third rule testing the raw count of
neutral items against 70. -/
theorem recommendations_of_nonempty (ts : List ATweet) (u : String)
    (h : ¬ ts.isEmpty = true) :
    generate_recommendations (generate_comprehensive_analysis ts u) =
      (if ((sum_engagement ts : ℚ) / (ts.length : ℚ)) < 10 then [rec_engaging] else []) ++
        (if ((media_count ts : ℚ) / (ts.length : ℚ)) * 100 < 30 then [rec_media] else []) ++
        (if (ts.filter (fun t => decide (t.sentiment = "neutral"))).length > 70 then
          [rec_emotional] else []) ++
        [rec_posting_times] := by
  have hg : generate_comprehensive_analysis ts u =
      some ⟨u, ts.length, sentiment_counter ts, sum_engagement ts,
        (sum_engagement ts : ℚ) / (ts.length : ℚ), media_count ts,
        ((media_count ts : ℚ) / (ts.length : ℚ)) * 100,
        analyze_posting_frequency ts⟩ := by
    unfold generate_comprehensive_analysis
    rw [if_neg h]
  rw [hg]
  simp only [generate_recommendations]
  rw [sentiment_counter_lookup]

/-- C5 counterexample: ten items, all labelled neutral, with high
engagement and full media usage.  The neutral proportion is 1.0 > 0.70,
yet the emotional-content recommendation is *not* emitted (the only
recommendation is the posting-times one), because the code compares the
raw neutral count (10) against 70 instead of the neutral proportion
against 0.70. -/
theorem claim_C5_counterexample :
    generate_recommendations (generate_comprehensive_analysis sample_neutral_ten "u") =
      [rec_posting_times] ∧
    rec_emotional ∉
      generate_recommendations (generate_comprehensive_analysis sample_neutral_ten "u") ∧
    ((sample_neutral_ten.filter (fun t => decide (t.sentiment = "neutral"))).length : ℚ) /
        (sample_neutral_ten.length : ℚ) > 7 / 10 := by
  have hr := recommendations_of_nonempty sample_neutral_ten "u" (by decide)
  have hsum : sum_engagement sample_neutral_ten = 1000 := by decide
  have hmed : media_count sample_neutral_ten = 10 := by decide
  have hlen : sample_neutral_ten.length = 10 := by decide
  have hneu : (sample_neutral_ten.filter (fun t => decide (t.sentiment = "neutral"))).length
      = 10 := by decide
  rw [hsum, hmed, hlen, hneu] at hr
  rw [if_neg (by norm_num : ¬(((1000 : Nat) : ℚ) / ((10 : Nat) : ℚ) < 10)),
    if_neg (by norm_num : ¬(((10 : Nat) : ℚ) / ((10 : Nat) : ℚ) * 100 < 30)),
    if_neg (by norm_num : ¬((10 : Nat) > 70))] at hr
  simp only [List.nil_append] at hr
  refine ⟨hr, ?_, ?_⟩
  · rw [hr]
    have : rec_emotional ≠ rec_posting_times := by decide
    simp [this]
  · rw [hneu, hlen]
    norm_num

/-- C5 (amended): for every non-empty item sequence the emotional-content
recommendation is emitted iff the raw *count* of neutral-labelled items
is strictly greater than 70 (the code tests
`sentiment_distribution.get('neutral', 0) > 70`, a count, not the
neutral proportion), and the four rules evaluate and are emitted in the
fixed order engagement, media, sentiment, posting-times. -/
theorem claim_C5_neutral_rule_uses_count (ts : List ATweet) (u : String) (h : ts ≠ []) :
    generate_recommendations (generate_comprehensive_analysis ts u) =
      (if ((sum_engagement ts : ℚ) / (ts.length : ℚ)) < 10 then [rec_engaging] else []) ++
        (if ((media_count ts : ℚ) / (ts.length : ℚ)) * 100 < 30 then [rec_media] else []) ++
        (if (ts.filter (fun t => decide (t.sentiment = "neutral"))).length > 70 then
          [rec_emotional] else []) ++
        [rec_posting_times] ∧
    (rec_emotional ∈ generate_recommendations (generate_comprehensive_analysis ts u) ↔
      (ts.filter (fun t => decide (t.sentiment = "neutral"))).length > 70) := by
  have hlen : ¬ ts.isEmpty = true := by
    cases ts with
    | nil => exact absurd rfl h
    | cons t ts => simp
  have hrec := recommendations_of_nonempty ts u hlen
  refine ⟨hrec, ?_⟩
  rw [hrec]
  have e1 : rec_emotional ≠ rec_engaging := by decide
  have e2 : rec_emotional ≠ rec_media := by decide
  have e4 : rec_emotional ≠ rec_posting_times := by decide
  constructor
  · intro hmem
    by_contra hgt
    rw [if_neg hgt] at hmem
    by_cases c1 : ((sum_engagement ts : ℚ) / (ts.length : ℚ)) < 10 <;>
      by_cases c2 : ((media_count ts : ℚ) / (ts.length : ℚ)) * 100 < 30 <;>
      simp [c1, c2, e1, e2, e4] at hmem
  · intro hgt
    rw [if_pos hgt]
    simp

/-- Witness for C5: seventy-one neutral items make the neutral count
exceed 70, so the emotional-content rule fires. -/
theorem claim_C5_neutral_rule_uses_count_witness :
    rec_emotional ∈
      generate_recommendations (generate_comprehensive_analysis sample_neutral_71 "u") :=
  ((claim_C5_neutral_rule_uses_count sample_neutral_71 "u" (by decide)).2).mpr (by decide)

/-! ## Claim C6 -/

/-- Python's tie-keeping `max` over a dict returns the earliest maximal
entry in insertion order: the fold result splits the list into a strictly
smaller prefix, the chosen entry, and a no-larger remainder. -/
theorem py_foldl_first_max {κ : Type} :
    ∀ (xs : List (κ × Nat)) (x : κ × Nat),
      ∃ l1 l2,
        x :: xs =
            l1 ++ (xs.foldl (fun best y => if y.2 > best.2 then y else best) x) :: l2 ∧
          (∀ p ∈ l1,
            p.2 < (xs.foldl (fun best y => if y.2 > best.2 then y else best) x).2) ∧
          (∀ p ∈ x :: xs,
            p.2 ≤ (xs.foldl (fun best y => if y.2 > best.2 then y else best) x).2) := by
  intro xs
  induction xs with
  | nil =>
    intro x
    exact ⟨[], [], rfl, by simp, by simp⟩
  | cons y xs ih =>
    intro x
    simp only [List.foldl_cons]
    by_cases hy : y.2 > x.2
    · rw [if_pos hy]
      obtain ⟨l1, l2, hdec, hpre, hall⟩ := ih y
      refine ⟨x :: l1, l2, ?_, ?_, ?_⟩
      · rw [List.cons_append, ← hdec]
      · intro p hp
        rcases List.mem_cons.mp hp with rfl | hp
        · exact lt_of_lt_of_le hy (hall y (List.mem_cons_self _ _))
        · exact hpre p hp
      · intro p hp
        rcases List.mem_cons.mp hp with rfl | hp
        · exact le_of_lt (lt_of_lt_of_le hy (hall y (List.mem_cons_self _ _)))
        · rcases List.mem_cons.mp hp with rfl | hp
          · exact hall p (List.mem_cons_self _ _)
          · exact hall p (List.mem_cons_of_mem _ hp)
    · rw [if_neg hy]
      obtain ⟨l1, l2, hdec, hpre, hall⟩ := ih x
      have hyx : y.2 ≤ x.2 := Nat.le_of_not_lt hy
      cases l1 with
      | nil =>
        simp only [List.nil_append] at hdec
        have hx := (List.cons.injEq _ _ _ _).mp hdec
        refine ⟨[], y :: xs, ?_, by simp, ?_⟩
        · simp only [List.nil_append]
          rw [← hx.1]
        · intro p hp
          rcases List.mem_cons.mp hp with rfl | hp
          · exact hall p (List.mem_cons_self _ _)
          · rcases List.mem_cons.mp hp with rfl | hp
            · exact le_trans hyx (hall x (List.mem_cons_self _ _))
            · exact hall p (List.mem_cons_of_mem _ hp)
      | cons a l1' =>
        simp only [List.cons_append] at hdec
        have hx := (List.cons.injEq _ _ _ _).mp hdec
        have hxm : x.2 < (xs.foldl (fun best y => if y.2 > best.2 then y else best) x).2 := by
          have := hpre a (List.mem_cons_self _ _)
          rw [← hx.1] at this
          exact this
        refine ⟨x :: y :: l1', l2, ?_, ?_, ?_⟩
        · simp only [List.cons_append]
          rw [← hx.2]
        · intro p hp
          rcases List.mem_cons.mp hp with rfl | hp
          · exact hxm
          · rcases List.mem_cons.mp hp with rfl | hp
            · exact lt_of_le_of_lt hyx hxm
            · exact hpre p (List.mem_cons_of_mem _ hp)
        · intro p hp
          rcases List.mem_cons.mp hp with rfl | hp
          · exact hall p (List.mem_cons_self _ _)
          · rcases List.mem_cons.mp hp with rfl | hp
            · exact le_trans hyx (le_of_lt hxm)
            · exact hall p (List.mem_cons_of_mem _ hp)

theorem bump_ne_nil {κ : Type} [DecidableEq κ] (d : List (κ × Nat)) (k : κ) :
    bump d k ≠ [] := by
  cases d with
  | nil => simp [bump]
  | cons p d =>
    by_cases h : p.1 = k
    · simp [bump, h]
    · simp [bump, h]

theorem posting_fold_ne_nil :
    ∀ (ts : List ATweet) (acc : List (Date × Nat) × List (Nat × Nat)),
      acc.2 ≠ [] → (ts.foldl posting_freq_step acc).2 ≠ [] := by
  intro ts
  induction ts with
  | nil => intro acc h; exact h
  | cons t ts ih =>
    intro acc h
    simp only [List.foldl_cons]
    apply ih
    unfold posting_freq_step
    cases hp : parse_created_at t.created_at with
    | none => exact h
    | some dh => exact bump_ne_nil acc.2 dh.2

theorem posting_fold_parseable_ne_nil :
    ∀ (ts : List ATweet) (acc : List (Date × Nat) × List (Nat × Nat)),
      (∃ t ∈ ts, (parse_created_at t.created_at).isSome) →
      (ts.foldl posting_freq_step acc).2 ≠ [] := by
  intro ts
  induction ts with
  | nil =>
    intro acc h
    rcases h with ⟨t, ht, _⟩
    exact absurd ht (List.not_mem_nil t)
  | cons t ts ih =>
    intro acc h
    simp only [List.foldl_cons]
    rcases h with ⟨t', ht', hp⟩
    rcases List.mem_cons.mp ht' with rfl | ht'
    · apply posting_fold_ne_nil
      unfold posting_freq_step
      cases hq : parse_created_at t'.created_at with
      | none => rw [hq] at hp; simp at hp
      | some dh => exact bump_ne_nil acc.2 dh.2
    · exact ih _ ⟨t', ht', hp⟩

/-- C6 counterexample: two items with parseable timestamps at hours 23
and 1 produce the hourly histogram [(23,1),(1,1)] — a tie at the maximal
count 1 — and `most_active_hour` is 23, the first-inserted hour, not the
smallest hour value 1 as the claim requires. -/
theorem claim_C6_counterexample :
    (analyze_posting_frequency sample_tie_tweets).hourly_distribution =
      [(23, 1), (1, 1)] ∧
    (analyze_posting_frequency sample_tie_tweets).most_active_hour = some 23 := by
  decide

/-- C6 (amended): for every item sequence with at least one parseable
timestamp, `most_active_hour` is an hour attaining the maximal hourly
count, but ties are broken by dict insertion order — the chosen hour is
the one whose maximal count appears *earliest* in the histogram (i.e.
the maximal hour first observed among the parseable items), not the
smallest hour value: every entry strictly before it in the histogram has
a strictly smaller count and no entry anywhere exceeds it. -/
theorem claim_C6_most_active_hour_first_max (ts : List ATweet)
    (h : ∃ t ∈ ts, (parse_created_at t.created_at).isSome) :
    ∃ (hr c : Nat) (l1 l2 : List (Nat × Nat)),
      (analyze_posting_frequency ts).hourly_distribution = l1 ++ (hr, c) :: l2 ∧
      (∀ p ∈ l1, p.2 < c) ∧
      (∀ p ∈ (analyze_posting_frequency ts).hourly_distribution, p.2 ≤ c) ∧
      (analyze_posting_frequency ts).most_active_hour = some hr := by
  have hne : (ts.foldl posting_freq_step ([], [])).2 ≠ [] :=
    posting_fold_parseable_ne_nil ts ([], []) h
  cases hH : (ts.foldl posting_freq_step ([], [])).2 with
  | nil => exact absurd hH hne
  | cons x xs =>
    obtain ⟨l1, l2, hdec, hpre, hall⟩ := py_foldl_first_max xs x
    have hhd : (analyze_posting_frequency ts).hourly_distribution = x :: xs := hH
    have hma : (analyze_posting_frequency ts).most_active_hour =
        (py_max_snd ((ts.foldl posting_freq_step ([], [])).2)).map Prod.fst := rfl
    refine ⟨(xs.foldl (fun best y => if y.2 > best.2 then y else best) x).1,
      (xs.foldl (fun best y => if y.2 > best.2 then y else best) x).2, l1, l2,
      ?_, hpre, ?_, ?_⟩
    · rw [hhd, Prod.mk.eta]
      exact hdec
    · rw [hhd]
      exact hall
    · rw [hma, hH]
      rfl

/-- Witness for C6: the tie sample has a parseable timestamp, so the
theorem yields a most active hour there. -/
theorem claim_C6_most_active_hour_first_max_witness :
    (analyze_posting_frequency sample_tie_tweets).most_active_hour.isSome = true := by
  obtain ⟨hr, c, l1, l2, _, _, _, hma⟩ :=
    claim_C6_most_active_hour_first_max sample_tie_tweets (by decide)
  rw [hma]
  rfl

/-! ## Claim C1 -/

theorem dict_insert_keys (k : String) (v : ProcResult) :
    ∀ (d : List (String × ProcResult)),
      (dict_insert d k v).map Prod.fst =
        if k ∈ d.map Prod.fst then d.map Prod.fst else d.map Prod.fst ++ [k] := by
  intro d
  induction d with
  | nil => simp [dict_insert]
  | cons p d ih =>
    by_cases hp : p.1 = k
    · simp only [dict_insert, if_pos hp, List.map_cons]
      rw [if_pos (List.mem_cons.mpr (Or.inl hp.symm))]
      rw [hp]
    · simp only [dict_insert, if_neg hp, List.map_cons, ih]
      have hknp : k ≠ p.1 := fun hk => hp hk.symm
      by_cases hk : k ∈ d.map Prod.fst
      · rw [if_pos hk, if_pos (List.mem_cons.mpr (Or.inr hk))]
      · rw [if_neg hk, if_neg (fun hmem => by
          rcases List.mem_cons.mp hmem with h | h
          · exact hknp h
          · exact hk h)]
        rfl

theorem dict_insert_nodup (d : List (String × ProcResult)) (k : String) (v : ProcResult)
    (h : (d.map Prod.fst).Nodup) : ((dict_insert d k v).map Prod.fst).Nodup := by
  rw [dict_insert_keys]
  by_cases hk : k ∈ d.map Prod.fst
  · rw [if_pos hk]
    exact h
  · rw [if_neg hk]
    rw [List.nodup_append]
    exact ⟨h, List.nodup_singleton k, fun a ha hb => by
      rw [List.mem_singleton] at hb
      subst hb
      exact hk ha⟩

theorem dict_insert_values (g : String → ProcResult) (k : String) (v : ProcResult)
    (hv : v = g k) :
    ∀ (d : List (String × ProcResult)), (∀ p ∈ d, p.2 = g p.1) →
      ∀ p ∈ dict_insert d k v, p.2 = g p.1 := by
  intro d
  induction d with
  | nil =>
    intro _ p hp
    rw [List.mem_singleton.mp hp, hv]
  | cons q d ih =>
    intro hd p hp
    by_cases hq : q.1 = k
    · simp only [dict_insert, if_pos hq] at hp
      rcases List.mem_cons.mp hp with rfl | hp
      · exact hv
      · exact hd p (List.mem_cons_of_mem _ hp)
    · simp only [dict_insert, if_neg hq] at hp
      rcases List.mem_cons.mp hp with rfl | hp
      · exact hd p (List.mem_cons_self _ _)
      · exact ih (fun r hr => hd r (List.mem_cons_of_mem _ hr)) p hp

theorem fold_dict_insert_spec (f : String → Except String ProcResult) :
    ∀ (us : List String) (d : List (String × ProcResult)),
      (d.map Prod.fst).Nodup → (∀ p ∈ d, p.2 = convert_result (f p.1)) →
      (((us.foldl (fun acc u => dict_insert acc u (convert_result (f u))) d).map
          Prod.fst).Nodup ∧
        (∀ u,
          u ∈ (us.foldl (fun acc u => dict_insert acc u (convert_result (f u))) d).map
              Prod.fst ↔
            u ∈ d.map Prod.fst ∨ u ∈ us) ∧
        (∀ p ∈ us.foldl (fun acc u => dict_insert acc u (convert_result (f u))) d,
          p.2 = convert_result (f p.1))) := by
  intro us
  induction us with
  | nil =>
    intro d h1 h2
    exact ⟨h1, fun u => by simp, h2⟩
  | cons u us ih =>
    intro d h1 h2
    simp only [List.foldl_cons]
    obtain ⟨n1, n2, n3⟩ :=
      ih (dict_insert d u (convert_result (f u))) (dict_insert_nodup d u _ h1)
        (dict_insert_values (fun w => convert_result (f w)) u _ rfl d h2)
    refine ⟨n1, ?_, n3⟩
    intro w
    rw [n2 w]
    constructor
    · rintro (hw | hw)
      · rw [dict_insert_keys] at hw
        by_cases hu : u ∈ d.map Prod.fst
        · rw [if_pos hu] at hw
          exact Or.inl hw
        · rw [if_neg hu] at hw
          rcases List.mem_append.mp hw with hw | hw
          · exact Or.inl hw
          · rw [List.mem_singleton.mp hw]
            exact Or.inr (List.mem_cons_self _ _)
      · exact Or.inr (List.mem_cons_of_mem _ hw)
    · rintro (hw | hw)
      · left
        rw [dict_insert_keys]
        by_cases hu : u ∈ d.map Prod.fst
        · rw [if_pos hu]
          exact hw
        · rw [if_neg hu]
          exact List.mem_append.mpr (Or.inl hw)
      · rcases List.mem_cons.mp hw with rfl | hw
        · left
          rw [dict_insert_keys]
          by_cases hu : w ∈ d.map Prod.fst
          · rw [if_pos hu]
            exact hu
          · rw [if_neg hu]
            exact List.mem_append.mpr (Or.inr (List.mem_singleton.mpr rfl))
        · right
          exact hw

theorem zip_fold_eq (f : String → Except String ProcResult) :
    ∀ (us : List String) (d : List (String × ProcResult)),
      (us.zip (us.map f)).foldl (fun acc p => dict_insert acc p.1 (convert_result p.2)) d =
        us.foldl (fun acc u => dict_insert acc u (convert_result (f u))) d := by
  intro us
  induction us with
  | nil => intro d; rfl
  | cons u us ih =>
    intro d
    simp only [List.map_cons, List.zip_cons_cons, List.foldl_cons]
    exact ih _

theorem process_multiple_users_eq_fold (us : List String)
    (f : String → Except String ProcResult) :
    process_multiple_users us f =
      us.foldl (fun acc u => dict_insert acc u (convert_result (f u))) [] := by
  unfold process_multiple_users
  exact zip_fold_eq f us []

/-- C1: `process_multiple_users` returns a mapping whose key set is
exactly the set of requested usernames — each requested id appears
exactly once (the keys are nodup), no id is dropped and no other key
appears — and the value recorded under each id is `process_user`'s result
for it, an exception being caught and converted to an
`{status: error, message: "Exception occurred: ..."}` record rather than
propagated. -/
theorem claim_C1_batch_result_covers_all_ids (us : List String)
    (f : String → Except String ProcResult) :
    ((process_multiple_users us f).map Prod.fst).Nodup ∧
    (∀ u, u ∈ (process_multiple_users us f).map Prod.fst ↔ u ∈ us) ∧
    (∀ p ∈ process_multiple_users us f, p.2 = convert_result (f p.1)) := by
  have h := fold_dict_insert_spec f us [] (by simp) (by simp)
  rw [process_multiple_users_eq_fold]
  refine ⟨h.1, ?_, h.2.2⟩
  intro u
  rw [h.2.1 u]
  simp

/-- Witness for C1: a batch with a duplicated id and a raising user
still yields every requested id as a key, exactly once. -/
theorem claim_C1_batch_result_covers_all_ids_witness :
    "a" ∈ (process_multiple_users ["a", "b", "a"] sample_proc).map Prod.fst ∧
    "b" ∈ (process_multiple_users ["a", "b", "a"] sample_proc).map Prod.fst ∧
    ((process_multiple_users ["a", "b", "a"] sample_proc).map Prod.fst).Nodup := by
  have h := claim_C1_batch_result_covers_all_ids ["a", "b", "a"] sample_proc
  exact ⟨(h.2.1 "a").mpr (by decide), (h.2.1 "b").mpr (by decide), h.1⟩

/-! ## Claim C4 -/

theorem sweep_dirs_ok (cutoff : Int) :
    ∀ (ds : List CorpusDir) (del : List String) (kept : List CorpusDir),
      (∀ d ∈ ds, d.delete_err = none) →
      sweep_dirs cutoff ds del kept =
        (none, del ++ (ds.filter (should_delete_dir cutoff)).map CorpusDir.name,
          kept ++ ds.filter (fun d => !(should_delete_dir cutoff d))) := by
  intro ds
  induction ds with
  | nil =>
    intro del kept _
    simp [sweep_dirs]
  | cons d ds ih =>
    intro del kept h
    by_cases hd : should_delete_dir cutoff d = true
    · have he : d.delete_err = none := h d (List.mem_cons_self _ _)
      simp only [sweep_dirs, if_pos hd, he]
      rw [ih (del ++ [d.name]) kept (fun x hx => h x (List.mem_cons_of_mem _ hx))]
      simp [List.filter_cons, hd, List.append_assoc]
    · simp only [sweep_dirs, if_neg hd]
      rw [ih del (kept ++ [d]) (fun x hx => h x (List.mem_cons_of_mem _ hx))]
      simp [List.filter_cons, hd, List.append_assoc]

theorem sweep_group_ok (cutoff : Int) (s : String) :
    ∀ (l : List CorpusFile), (∀ f ∈ l, f.delete_err = none) →
      sweep_group cutoff s l =
        (none, (l.filter (due_for_delete cutoff s)).map corpus_file_path,
          l.filter (fun f => !(due_for_delete cutoff s f))) := by
  intro l
  induction l with
  | nil => intro _; rfl
  | cons f l ih =>
    intro h
    by_cases hf : due_for_delete cutoff s f = true
    · have he : f.delete_err = none := h f (List.mem_cons_self _ _)
      simp only [sweep_group, if_pos hf, he]
      rw [ih (fun x hx => h x (List.mem_cons_of_mem _ hx))]
      simp [List.filter_cons, hf]
    · simp only [sweep_group, if_neg hf]
      rw [ih (fun x hx => h x (List.mem_cons_of_mem _ hx))]
      simp [List.filter_cons, hf]

theorem sweep_files_go_ok (cutoff : Int) :
    ∀ (ss : List String) (files : List CorpusFile) (del : List String),
      (∀ f ∈ files, f.delete_err = none) →
      sweep_files_go cutoff ss files del =
        (none, del ++ files_del_list cutoff ss files,
          files.filter (fun f => !(ss.any (fun s => due_for_delete cutoff s f)))) := by
  intro ss
  induction ss with
  | nil =>
    intro files del _
    simp [sweep_files_go, files_del_list]
  | cons s ss ih =>
    intro files del h
    simp only [sweep_files_go]
    rw [sweep_group_ok cutoff s files h]
    show sweep_files_go cutoff ss (files.filter (fun f => !(due_for_delete cutoff s f)))
        (del ++ (files.filter (due_for_delete cutoff s)).map corpus_file_path) = _
    rw [ih (files.filter (fun f => !(due_for_delete cutoff s f))) _
      (fun x hx => h x (List.mem_filter.mp hx).1)]
    simp only [files_del_list, List.append_assoc]
    rw [List.filter_filter]
    have hfe : List.filter
        (fun a => (!ss.any fun s' => due_for_delete cutoff s' a) &&
          !due_for_delete cutoff s a) files =
        List.filter (fun f => !(s :: ss).any fun s' => due_for_delete cutoff s' f) files := by
      apply List.filter_congr
      intro f _
      simp [List.any_cons, Bool.not_or, Bool.and_comm]
    rw [hfe]

/-- C4 counterexample: two expired date partitions where deleting the
first raises.  The sweep does not log-and-continue: the whole operation
returns an error result, the removed-entries list is not returned, the
corpus is returned unchanged (the first directory survives its failed
delete and the second is never visited), even though the second
directory was due for deletion. -/
theorem claim_C4_counterexample :
    (cleanup_old_data 10 (date_secs ⟨2024, 3, 1⟩) sample_fail_corpus).1.status = "error" ∧
    (cleanup_old_data 10 (date_secs ⟨2024, 3, 1⟩) sample_fail_corpus).1.deleted_files =
      none ∧
    (cleanup_old_data 10 (date_secs ⟨2024, 3, 1⟩) sample_fail_corpus).2 =
      sample_fail_corpus ∧
    should_delete_dir (date_secs ⟨2024, 3, 1⟩ - 10 * 86400) ⟨"2024-01-02", none⟩ = true := by
  decide

/-- C4 (amended): when no per-entry delete fails, `cleanup_old_data`
returns a success result listing exactly the removed entries, deletes
exactly the non-reserved top-level directories whose names parse as
dates strictly before `now - N days` plus the `*.json` files under the
raw/analyzed/processed/temp directories older than the cutoff by mtime,
and never deletes a directory whose name fails to parse as a date.  A
per-entry deletion failure, however, is caught only by the function-level
handler: the sweep stops, an error result without the removed-entries
list is returned, and the remaining due entries are left in place (see
the counterexample) rather than being logged and swept past. -/
theorem claim_C4_cleanup_exact_sweep (n : Nat) (now : Int) (c : Corpus)
    (hd : ∀ d ∈ c.dirs, d.delete_err = none)
    (hf : ∀ f ∈ c.files, f.delete_err = none) :
    (cleanup_old_data n now c).1.status = "success" ∧
    (cleanup_old_data n now c).1.deleted_files =
      some ((c.dirs.filter (should_delete_dir (now - (n : Int) * 86400))).map
          CorpusDir.name ++
        files_del_list (now - (n : Int) * 86400) file_sweep_subdirs c.files) ∧
    (cleanup_old_data n now c).2.dirs =
      c.dirs.filter (fun d => !(should_delete_dir (now - (n : Int) * 86400) d)) ∧
    (cleanup_old_data n now c).2.files =
      c.files.filter (fun f =>
        !(file_sweep_subdirs.any (fun s => due_for_delete (now - (n : Int) * 86400) s f))) ∧
    (∀ d ∈ c.dirs, parse_date_name d.name = none → d ∈ (cleanup_old_data n now c).2.dirs) := by
  have h1 := sweep_dirs_ok (now - (n : Int) * 86400) c.dirs [] [] hd
  have h2 := sweep_files_go_ok (now - (n : Int) * 86400) file_sweep_subdirs c.files [] hf
  simp only [cleanup_old_data]
  rw [h1, h2]
  refine ⟨rfl, rfl, ?_, rfl, ?_⟩
  · simp
  · intro d hdm hparse
    simp only [List.nil_append]
    exact List.mem_filter.mpr ⟨hdm, by simp [should_delete_dir, hparse]⟩

/-- Witness for C4: the all-deletes-succeed corpus is swept exactly. -/
theorem claim_C4_cleanup_exact_sweep_witness :
    (cleanup_old_data 10 (date_secs ⟨2024, 3, 1⟩) sample_ok_corpus).1.status = "success" ∧
    (cleanup_old_data 10 (date_secs ⟨2024, 3, 1⟩) sample_ok_corpus).1.deleted_files =
      some ((sample_ok_corpus.dirs.filter
            (should_delete_dir (date_secs ⟨2024, 3, 1⟩ - (10 : Int) * 86400))).map
          CorpusDir.name ++
        files_del_list (date_secs ⟨2024, 3, 1⟩ - (10 : Int) * 86400) file_sweep_subdirs
          sample_ok_corpus.files) ∧
    (cleanup_old_data 10 (date_secs ⟨2024, 3, 1⟩) sample_ok_corpus).2.dirs =
      sample_ok_corpus.dirs.filter (fun d =>
        !(should_delete_dir (date_secs ⟨2024, 3, 1⟩ - (10 : Int) * 86400) d)) := by
  have h := claim_C4_cleanup_exact_sweep 10 (date_secs ⟨2024, 3, 1⟩) sample_ok_corpus
    (by decide) (by decide)
  exact ⟨h.1, h.2.1, h.2.2.1⟩

end XPipeline
